import Mathlib

/-!
Shallow embedding of the oxc formatter printing stage
(crates/oxc_formatter/src/formatter/printer/mod.rs) together with theorems
checking the natural-language specification of the printer against it.

The printer interprets an immutable layout document (a flat sequence of
atoms and paired tags) producing formatted text.  The embedding translates
the Rust source function by function: machine integers become Nat, the
growable output String stays a String, fallible code returns Except.
The iterative interpreter loops of the Rust code (whose termination is
guaranteed by finiteness of the document) are embedded with an explicit
fuel parameter; running out of fuel is reported as a distinguished error
value that no real run of the claims below hits.

Character widths: the Rust code measures text with the external
unicode_width crate (`char::width`), with tabs costing one indent width.
The claims only involve ASCII text, so the embedding models the width of
every character other than a tab as 1 (tabs cost the configured indent
width, and line feeds are handled specially, exactly as in the source).
-/

namespace OxcPrinter

/-- PrintMode from format_element: mode a group instance is printed in. -/
inductive PrintMode where
  | flat
  | expanded
deriving DecidableEq, Repr

/-- PrintMode::is_flat. -/
def PrintMode.isFlat : PrintMode → Bool
  | .flat => true
  | .expanded => false

/-- LineMode of a Line atom (Soft, SoftOrSpace, Hard, Empty). -/
inductive LineMode where
  | soft
  | softOrSpace
  | hard
  | empty
deriving DecidableEq, Repr

/-- IndentStyle from the printer options (Tab or Space). -/
inductive IndentStyle where
  | tab
  | space
deriving DecidableEq, Repr

/-- IndentStyle::is_tab. -/
def IndentStyle.isTab : IndentStyle → Bool
  | .tab => true
  | .space => false

/-- DedentMode of a Dedent tag (one level, or reset to root). -/
inductive DedentMode where
  | level
  | root
deriving DecidableEq, Repr

/-- TagKind: the kind of a paired start/end tag. -/
inductive TagKind where
  | group
  | fill
  | indent
  | dedent
  | align
  | conditionalContent
  | indentIfGroupBreaks
  | lineSuffix
  | verbatim
  | labelled
  | entry
deriving DecidableEq, Repr

/-- Condition attached to a ConditionalContent tag: visible only when the
referenced group (by id, or the enclosing context) is in mode `mode`. -/
structure Condition where
  mode : PrintMode
  groupId : Option Nat
deriving DecidableEq, Repr

/-- Attributes of a Group start tag: the group's own mode hint (a group
whose hint is not flat must stay expanded) and an optional identity. -/
structure GroupTag where
  grpMode : PrintMode
  id : Option Nat
deriving DecidableEq, Repr

/-- GroupTag mode hint test, mirroring group.mode().is_flat(). -/
def GroupTag.isFlat (g : GroupTag) : Bool := g.grpMode.isFlat

/-- Tag: paired start/end layout directives of the document. -/
inductive Tag where
  | startGroup (g : GroupTag)
  | endGroup
  | startFill
  | endFill
  | startIndent
  | endIndent
  | startDedent (m : DedentMode)
  | endDedent (m : DedentMode)
  | startAlign (count : Nat)
  | endAlign
  | startConditionalContent (c : Condition)
  | endConditionalContent
  | startIndentIfGroupBreaks (id : Nat)
  | endIndentIfGroupBreaks (id : Nat)
  | startLineSuffix
  | endLineSuffix
  | startVerbatim
  | endVerbatim
  | startLabelled
  | endLabelled
  | startEntry
  | endEntry
deriving DecidableEq, Repr

/-- Tag::kind. -/
def Tag.kind : Tag → TagKind
  | .startGroup _ | .endGroup => .group
  | .startFill | .endFill => .fill
  | .startIndent | .endIndent => .indent
  | .startDedent _ | .endDedent _ => .dedent
  | .startAlign _ | .endAlign => .align
  | .startConditionalContent _ | .endConditionalContent => .conditionalContent
  | .startIndentIfGroupBreaks _ | .endIndentIfGroupBreaks _ => .indentIfGroupBreaks
  | .startLineSuffix | .endLineSuffix => .lineSuffix
  | .startVerbatim | .endVerbatim => .verbatim
  | .startLabelled | .endLabelled => .labelled
  | .startEntry | .endEntry => .entry

/-- Tag::is_start. -/
def Tag.isStart : Tag → Bool
  | .startGroup _ | .startFill | .startIndent | .startDedent _ | .startAlign _
  | .startConditionalContent _ | .startIndentIfGroupBreaks _ | .startLineSuffix
  | .startVerbatim | .startLabelled | .startEntry => true
  | _ => false

/-- FormatElement: one atom or tag of the layout document.  Text is carried
as a list of characters (the Rust &str), best-fitting nodes carry their
ordered variant list (each variant a whole Entry-delimited subtree), and
Interned carries the shared subtree to expand. -/
inductive FormatElement where
  | space
  | hardSpace
  | staticText (text : List Char)
  | dynamicText (text : List Char)
  | locatedTokenText (text : List Char)
  | line (mode : LineMode)
  | expandParent
  | lineSuffixBoundary
  | bestFitting (variants : List (List FormatElement))
  | interned (content : List FormatElement)
  | tag (t : Tag)

/-- PrinterOptions: maximum print width, indent style and width, and the
line-ending string used for every emitted line break. -/
structure PrinterOptions where
  printWidth : Nat
  indentStyle : IndentStyle
  indentWidth : Nat
  lineEnding : String

/-- Indention value translated from mod.rs: either a plain level, or a
level plus pending alignment spaces plus a count of stacked alignments. -/
inductive Indention where
  | level (count : Nat)
  | align (level : Nat) (alignSpaces : Nat) (alignCount : Nat)
deriving DecidableEq, Repr

/-- Indention::is_empty. -/
def Indention.isEmpty : Indention → Bool
  | .level 0 => true
  | _ => false

/-- Indention::new: zero indent. -/
def Indention.new : Indention := .level 0

/-- Indention::level accessor. -/
def Indention.levelOf : Indention → Nat
  | .level count => count
  | .align l _ _ => l

/-- Indention::align accessor: trailing align spaces or 0. -/
def Indention.alignOf : Indention → Nat
  | .level _ => 0
  | .align _ a _ => a

/-- Indention::increment_level: with tabs a pending alignment is converted
into further levels; with spaces level and alignment are independent. -/
def Indention.incrementLevel (ind : Indention) (style : IndentStyle) : Indention :=
  match ind with
  | .level count => .level (count + 1)
  | .align l a c =>
    if style.isTab then .level (l + c + 1) else .align (l + 1) a c

/-- Indention::set_align: adds `count` alignment spaces, stacking on any
existing alignment (the Rust align field is a saturating u8 that is always
positive; the claims never exercise the saturation bound). -/
def Indention.setAlign (ind : Indention) (count : Nat) : Indention :=
  match ind with
  | .level l => .align l count 1
  | .align l a c => .align l (a + count) (c + 1)

/-- PrintElementArgs: the per-stack-frame arguments; the printer only
consults the print mode.  The default mode is Expanded (mod.rs notes the
mode is initialized to Expanded by default). -/
structure PrintElementArgs where
  mode : PrintMode
deriving DecidableEq, Repr

/-- PrintElementArgs::new. -/
def PrintElementArgs.new : PrintElementArgs := ⟨.expanded⟩

/-- PrintElementArgs::with_print_mode. -/
def PrintElementArgs.withMode (_ : PrintElementArgs) (m : PrintMode) : PrintElementArgs := ⟨m⟩

/-- StackFrame of the mode/call stack: an open tag kind plus its args. -/
structure StackFrame where
  kind : TagKind
  args : PrintElementArgs
deriving DecidableEq, Repr

/-- ActualStart describes what was found where an Entry start tag was
expected (from invalid_start_tag in mod.rs). -/
inductive ActualStart where
  | endOfDocument
  | startTag (k : TagKind)
  | endTag (k : TagKind)
  | content
deriving DecidableEq, Repr

/-- InvalidDocumentError: the three malformed-document conditions. -/
inductive InvalidDocumentError where
  | startTagMissing (kind : TagKind)
  | startEndTagMismatch (startKind endKind : TagKind)
  | expectedStart (actual : ActualStart) (expectedStart : TagKind)
deriving DecidableEq, Repr

/-- PrintError: the result of a failed print call.  invalidDocument mirrors
PrintError::InvalidDocument; panicTodo models the todo!() panic in the
StartVerbatim arm; panicMissingGroupMode models the unwrap_print_mode
panic; panicAssert models the assert! in the fill re-measure; outOfFuel is
an artifact of the fuel-based embedding of the interpreter loops. -/
inductive PrintError where
  | invalidDocument (e : InvalidDocumentError)
  | panicTodo
  | panicMissingGroupMode
  | panicAssert
  | outOfFuel
deriving DecidableEq, Repr

/-- invalid_end_tag from mod.rs: build the error for an End tag whose kind
does not match the top of the stack (endTag is the kind popped, startTag
the kind actually on top, None when the stack is empty). -/
def invalidEndTagErr (endTag : TagKind) (startTag : Option TagKind) : PrintError :=
  .invalidDocument (match startTag with
    | none => .startTagMissing endTag
    | some kind => .startEndTagMismatch endTag kind)

/-- invalid_start_tag from mod.rs: build the error for a protocol point
that expected a Start tag of kind `expected` but found `actual`. -/
def invalidStartTagErr (expected : TagKind) (actual : Option FormatElement) : PrintError :=
  let start := match actual with
    | none => ActualStart.endOfDocument
    | some (.tag t) => if t.isStart then ActualStart.startTag t.kind else ActualStart.endTag t.kind
    | some _ => ActualStart.content
  .invalidDocument (.expectedStart start expected)

/-- CallStack of (tag kind, args) frames over a root args value.  Modelled
from the spec: the call_stack module itself is outside the provided
sources; §4.2 specifies kind-checked push/pop with pop failing on a
start/end mismatch (the error values are built exactly as invalid_end_tag
in mod.rs builds them), top yields the innermost frame's args (the root
args, default mode Expanded, when no frame is open). -/
structure CallStack where
  root : PrintElementArgs
  frames : List StackFrame
deriving DecidableEq, Repr

/-- CallStack top args. -/
def CallStack.top (s : CallStack) : PrintElementArgs :=
  match s.frames with
  | [] => s.root
  | f :: _ => f.args

/-- CallStack::top_kind: kind of the innermost open frame. -/
def CallStack.topKind (s : CallStack) : Option TagKind :=
  match s.frames with
  | [] => none
  | f :: _ => some f.kind

/-- CallStack push. -/
def CallStack.push (s : CallStack) (k : TagKind) (a : PrintElementArgs) : CallStack :=
  ⟨s.root, ⟨k, a⟩ :: s.frames⟩

/-- CallStack kind-checked pop: fails with a start/end mismatch error when
the top frame's kind differs from the popped kind, and with a
missing-start-tag error when no frame is open. -/
def CallStack.popChecked (s : CallStack) (k : TagKind) : Except PrintError CallStack :=
  match s.frames with
  | [] => .error (invalidEndTagErr k none)
  | f :: rest =>
    if f.kind = k then .ok ⟨s.root, rest⟩
    else .error (invalidEndTagErr k (some f.kind))

/-- IndentStack.  Modelled from the spec: the call_stack module holding the
Rust PrintIndentStack is outside the provided sources; §4.2 specifies a
stack of Indention values (the Indention arithmetic itself is translated
from mod.rs) with indent/align pushing an updated value, two dedent forms,
and a side buffer of line-suffix indentation snapshots replayed by
flush_suffixes. -/
structure IndentStack where
  stack : List Indention
  suffixBuf : List Indention
deriving DecidableEq, Repr

/-- IndentStack current indention (root Level 0 if somehow empty). -/
def IndentStack.indention (s : IndentStack) : Indention :=
  match s.stack with
  | [] => Indention.new
  | i :: _ => i

/-- IndentStack::indent: push the incremented indention. -/
def IndentStack.indent (s : IndentStack) (style : IndentStyle) : IndentStack :=
  ⟨(s.indention.incrementLevel style) :: s.stack, s.suffixBuf⟩

/-- IndentStack::align: push the indention extended by `count` spaces. -/
def IndentStack.alignBy (s : IndentStack) (count : Nat) : IndentStack :=
  ⟨(s.indention.setAlign count) :: s.stack, s.suffixBuf⟩

/-- IndentStack pop. -/
def IndentStack.pop (s : IndentStack) : IndentStack :=
  ⟨s.stack.tail, s.suffixBuf⟩

/-- IndentStack::start_dedent: push the indention one level down. -/
def IndentStack.startDedent (s : IndentStack) : IndentStack :=
  let i := match s.indention with
    | .level c => Indention.level (c - 1)
    | .align l a c => Indention.align (l - 1) a c
  ⟨i :: s.stack, s.suffixBuf⟩

/-- IndentStack::end_dedent: pop the dedented value. -/
def IndentStack.endDedent (s : IndentStack) : IndentStack := s.pop

/-- IndentStack::reset_indent: push the root indention (Dedent::Root). -/
def IndentStack.resetIndent (s : IndentStack) : IndentStack :=
  ⟨(s.stack.getLast?.getD Indention.new) :: s.stack, s.suffixBuf⟩

/-- IndentStack::push_suffix: snapshot the indention active when a line
suffix is queued. -/
def IndentStack.pushSuffix (s : IndentStack) (i : Indention) : IndentStack :=
  ⟨s.stack, i :: s.suffixBuf⟩

/-- IndentStack::flush_suffixes: replay the snapshots onto the stack (one
is popped again by each re-queued EndLineSuffix tag). -/
def IndentStack.flushSuffixes (s : IndentStack) : IndentStack :=
  ⟨s.suffixBuf ++ s.stack, []⟩

/-- Queue: the traversal cursor over the flattened document.  Modelled from
the spec: the queue module is outside the provided sources; §4.1 specifies
pop/peek from the front, extend_back prepending a sub-slice to be consumed
next, push prepending one element, pop_slice undoing the most recent
extend_back (realised at the call sites by dropping the pushed slice
again), and skip_content advancing past a matched Start/End region of one
kind, tracking nesting. -/
abbrev Queue := List FormatElement

/-- Queue top (peek without advancing). -/
def Queue.topEl (q : Queue) : Option FormatElement := q.head?

/-- Queue extend_back: the slice is consumed before the rest. -/
def Queue.extendBack (q : Queue) (slice : List FormatElement) : Queue := slice ++ q

/-- Queue push of one element to be consumed next. -/
def Queue.pushEl (q : Queue) (el : FormatElement) : Queue := el :: q

/-- Queue skip_content worker: consume up to and including the matching
End tag of `kind`, tracking nesting depth of same-kind tags. -/
def Queue.skipContentAux (kind : TagKind) : Queue → Nat → Queue
  | [], _ => []
  | el :: rest, depth =>
    match el with
    | .tag t =>
      if t.kind = kind then
        if t.isStart then Queue.skipContentAux kind rest (depth + 1)
        else if depth = 0 then rest
        else Queue.skipContentAux kind rest (depth - 1)
      else Queue.skipContentAux kind rest depth
    | _ => Queue.skipContentAux kind rest depth

/-- Queue skip_content: called right after the Start tag was consumed. -/
def Queue.skipContent (q : Queue) (kind : TagKind) : Queue :=
  Queue.skipContentAux kind q 0

/-- Queue iter_content worker: collect the elements of the region up to the
matching End tag (which is consumed but not collected). -/
def Queue.iterContentAux (kind : TagKind) : Queue → Nat → List FormatElement × Queue
  | [], _ => ([], [])
  | el :: rest, depth =>
    match el with
    | .tag t =>
      if t.kind = kind then
        if t.isStart then
          let (c, q) := Queue.iterContentAux kind rest (depth + 1)
          (el :: c, q)
        else if depth = 0 then ([], rest)
        else
          let (c, q) := Queue.iterContentAux kind rest (depth - 1)
          (el :: c, q)
      else
        let (c, q) := Queue.iterContentAux kind rest depth
        (el :: c, q)
    | _ =>
      let (c, q) := Queue.iterContentAux kind rest depth
      (el :: c, q)

/-- Queue iter_content: content of a region whose Start tag was consumed. -/
def Queue.iterContent (q : Queue) (kind : TagKind) : List FormatElement × Queue :=
  Queue.iterContentAux kind q 0

/-- Tests whether the queue is positioned at a StartEntry tag. -/
def Queue.atStartEntry (q : Queue) : Bool :=
  match q with
  | .tag .startEntry :: _ => true
  | _ => false

/-- Tests whether the queue is positioned at an EndFill tag. -/
def Queue.atEndFill (q : Queue) : Bool :=
  match q with
  | .tag .endFill :: _ => true
  | _ => false

/-- GroupModes: the dense id-keyed group print-mode table (a vector of
optional modes indexed by group id), from mod.rs. -/
abbrev GroupModes := List (Option PrintMode)

/-- GroupModes::insert_print_mode: grow the table with None up to the id
if needed, then set the slot. -/
def GroupModes.insertPrintMode (l : GroupModes) (g : Nat) (m : PrintMode) : GroupModes :=
  let l' := if l.length ≤ g then l ++ List.replicate (g + 1 - l.length) none else l
  l'.set g (some m)

/-- GroupModes::get_print_mode. -/
def GroupModes.getPrintMode (l : GroupModes) (g : Nat) : Option PrintMode :=
  (l.get? g).bind id

/-- LineSuffixEntry: one deferred-suffix store entry (content element, or
the args frame captured at the StartLineSuffix). -/
inductive LineSuffixEntry where
  | suffixEl (el : FormatElement)
  | argsEntry (a : PrintElementArgs)

/-- PrinterState (PState): all mutable output state of one print call:
output buffer, pending indent/space, the fits cache flag, current line
width, empty-line flag, deferred line suffixes, verbatim ranges and the
group-mode table, from mod.rs (the reusable fits scratch containers are an
allocation optimisation with no observable behavior and are not
modelled). -/
structure PState where
  buffer : String
  pendingIndent : Indention
  pendingSpace : Bool
  measuredGroupFits : Bool
  lineWidth : Nat
  hasEmptyLine : Bool
  lineSuffixes : List LineSuffixEntry
  verbatimMarkers : List (Nat × Nat)
  groupModes : GroupModes

/-- Initial PrinterState (PrinterState::default). -/
def PState.init : PState :=
  ⟨"", Indention.new, false, false, 0, false, [], [], []⟩

/-- LineSuffixes::has_pending. -/
def PState.hasPendingSuffixes (st : PState) : Bool := !st.lineSuffixes.isEmpty

/-- Display width of one character: tabs cost the configured indent width,
all other characters are modelled at width 1 (see the header note). -/
def charWidth (opts : PrinterOptions) (c : Char) : Nat :=
  if c = '\t' then opts.indentWidth else 1

/-- Printer::print_char iterated over a character list (single pass over
the buffer, line width and fits-cache fields): a line feed appends the
configured line ending and resets the line width, invalidating the fits
cache; any other character is appended and widens the line. -/
def printStrCore (opts : PrinterOptions) :
    List Char → String → Nat → Bool → String × Nat × Bool
  | [], buffer, lineWidth, mgf => (buffer, lineWidth, mgf)
  | c :: cs, buffer, lineWidth, mgf =>
    if c = '\n' then printStrCore opts cs (buffer ++ opts.lineEnding) 0 false
    else printStrCore opts cs (buffer.push c) (lineWidth + charWidth opts c) mgf

/-- Printer::print_str: print each character, clearing the empty-line flag
after each one (so the flag is cleared exactly when the text is
non-empty). -/
def printStr (opts : PrinterOptions) (st : PState) (s : List Char) : PState :=
  match printStrCore opts s st.buffer st.lineWidth st.measuredGroupFits with
  | (buffer, lineWidth, mgf) =>
    {st with buffer := buffer, lineWidth := lineWidth, measuredGroupFits := mgf,
             hasEmptyLine := if s.isEmpty then st.hasEmptyLine else false}

/-- Printer::print_text: materialize any pending indentation (levels as
tabs or indent-width spaces, then alignment spaces, emitted with
print_char, which does not touch the empty-line flag), then a pending
coalesced space, then the text itself (via print_str, which clears the
empty-line flag when non-empty).  The pending indent is always left empty
afterwards (when it was already empty it is the zero Indention, so taking
it is the identity) and the pending space is always cleared (when no
space was pending it was already false). -/
def printText (opts : PrinterOptions) (st : PState) (text : List Char) : PState :=
  let indentChar : Char := match opts.indentStyle with | .tab => '\t' | .space => ' '
  let repeatCount : Nat := match opts.indentStyle with | .tab => 1 | .space => opts.indentWidth
  let ind := st.pendingIndent
  let indentChars : List Char :=
    if ind.isEmpty then []
    else List.replicate (ind.levelOf * repeatCount) indentChar ++ List.replicate ind.alignOf ' '
  let spaceChars : List Char := if st.pendingSpace then [' '] else []
  match printStrCore opts (indentChars ++ spaceChars ++ text)
      st.buffer st.lineWidth st.measuredGroupFits with
  | (buffer, lineWidth, mgf) =>
    {st with buffer := buffer, lineWidth := lineWidth, measuredGroupFits := mgf,
             pendingIndent := Indention.new, pendingSpace := false,
             hasEmptyLine :=
               if spaceChars.isEmpty ∧ text.isEmpty then st.hasEmptyLine else false}

/-- Fits: verdict of measuring one element (fits, does not fit, or depends
on what follows). -/
inductive Fits where
  | yes
  | no
  | maybe
deriving DecidableEq, Repr

/-- FitsState: the shadow bookkeeping of one fits measurement, copied from
the printer state when the measurer is created. -/
structure FitsState where
  pendingIndent : Indention
  pendingSpace : Bool
  hasLineSuffix : Bool
  lineWidth : Nat
deriving DecidableEq, Repr

/-- FitsM: one fits-measurer instance: its shadow state and shadow copies
of the cursor and the two stacks, plus the printer state it may write
group modes into (the Rust measurer borrows the printer mutably). -/
structure FitsM where
  fs : FitsState
  st : PState
  stack : CallStack
  istack : IndentStack
  q : Queue

/-- FitsMeasurer creation: snapshot the printer's pending indent, pending
space, line width and suffix flag, and take shadow copies of the cursor
and stacks. -/
def mkFitsM (st : PState) (stack : CallStack) (istack : IndentStack) (q : Queue) : FitsM :=
  ⟨⟨st.pendingIndent, st.pendingSpace, st.hasPendingSuffixes, st.lineWidth⟩, st, stack, istack, q⟩

/-- FitsMeasurer::fits_text worker: walk the characters accumulating width;
a line feed resolves the verdict immediately from the must-be-flat flag
and the width accumulated so far. -/
def fitsTextLoop (opts : PrinterOptions) (mbf : Bool) : List Char → Nat → Option Fits × Nat
  | [], w => (none, w)
  | c :: cs, w =>
    if c = '\n' then
      (some (if mbf ∨ w > opts.printWidth then Fits.no else Fits.yes), w)
    else fitsTextLoop opts mbf cs (w + charWidth opts c)

/-- FitsMeasurer::fits_text: charge pending indent and pending space, walk
the characters, and fail when the accumulated width exceeds the print
width (the pending space is only cleared on the fall-through path, exactly
as in the source). -/
def fitsText (opts : PrinterOptions) (mbf : Bool) (fs : FitsState) (text : List Char) :
    Fits × FitsState :=
  let w0 := fs.lineWidth + fs.pendingIndent.levelOf * opts.indentWidth + fs.pendingIndent.alignOf
  let w0 := if fs.pendingSpace then w0 + 1 else w0
  let fs := {fs with pendingIndent := Indention.new, lineWidth := w0}
  match fitsTextLoop opts mbf text w0 with
  | (some v, w) => (v, {fs with lineWidth := w})
  | (none, w) =>
    if w > opts.printWidth then (Fits.no, {fs with lineWidth := w})
    else (Fits.maybe, {fs with lineWidth := w, pendingSpace := false})

/-- Helper for the End-tag arms of fits_element: kind-checked pop of the
shadow call stack. -/
def fitsPop (m : FitsM) (k : TagKind) : Except PrintError Fits × FitsM :=
  match m.stack.popChecked k with
  | .error e => (.error e, m)
  | .ok s => (.ok .maybe, {m with stack := s})

/-- FitsMeasurer::fits_element, translated arm by arm from mod.rs. -/
def fitsElement (opts : PrinterOptions) (mbf : Bool) (m : FitsM) (element : FormatElement) :
    Except PrintError Fits × FitsM :=
  let args := m.stack.top
  match element with
  | .space =>
    if m.fs.lineWidth > 0 then (.ok .maybe, {m with fs := {m.fs with pendingSpace := true}})
    else (.ok .maybe, m)
  | .hardSpace =>
    let fs := {m.fs with lineWidth := m.fs.lineWidth + 1}
    if fs.lineWidth > opts.printWidth then (.ok .no, {m with fs := fs})
    else (.ok .maybe, {m with fs := fs})
  | .line lm =>
    if args.mode.isFlat then
      match lm with
      | .softOrSpace => (.ok .maybe, {m with fs := {m.fs with pendingSpace := true}})
      | .soft => (.ok .maybe, m)
      | .hard => (.ok .yes, m)
      | .empty => (.ok .yes, m)
    else (.ok .yes, m)
  | .staticText t =>
    let r := fitsText opts mbf m.fs t
    (.ok r.1, {m with fs := r.2})
  | .dynamicText t =>
    let r := fitsText opts mbf m.fs t
    (.ok r.1, {m with fs := r.2})
  | .locatedTokenText t =>
    let r := fitsText opts mbf m.fs t
    (.ok r.1, {m with fs := r.2})
  | .lineSuffixBoundary =>
    if m.fs.hasLineSuffix then (.ok .no, m) else (.ok .maybe, m)
  | .expandParent =>
    if mbf then (.ok .no, m) else (.ok .maybe, m)
  | .bestFitting variants =>
    let slice := match args.mode with
      | .flat => variants.head?.getD []
      | .expanded => (variants.getLast?).getD []
    match slice.head? with
    | some (.tag .startEntry) => (.ok .maybe, {m with q := m.q.extendBack slice})
    | other => (.error (invalidStartTagErr .entry other), m)
  | .interned content => (.ok .maybe, {m with q := m.q.extendBack content})
  | .tag .startIndent =>
    (.ok .maybe, {m with istack := m.istack.indent opts.indentStyle,
                         stack := m.stack.push .indent args})
  | .tag (.startDedent dm) =>
    let istack := match dm with
      | DedentMode.level => m.istack.startDedent
      | DedentMode.root => m.istack.resetIndent
    (.ok .maybe, {m with istack := istack, stack := m.stack.push .dedent args})
  | .tag (.startAlign n) =>
    (.ok .maybe, {m with istack := m.istack.alignBy n, stack := m.stack.push .align args})
  | .tag (.startGroup g) =>
    if mbf ∧ ¬g.isFlat then (.ok .no, m)
    else
      let groupMode := if g.isFlat then args.mode else PrintMode.expanded
      let m := {m with stack := m.stack.push .group (args.withMode groupMode)}
      match g.id with
      | some i =>
        (.ok .maybe, {m with st :=
          {m.st with groupModes := m.st.groupModes.insertPrintMode i groupMode}})
      | none => (.ok .maybe, m)
  | .tag (.startConditionalContent c) =>
    let groupMode := match c.groupId with
      | none => args.mode
      | some gid => (m.st.groupModes.getPrintMode gid).getD args.mode
    if groupMode = c.mode then
      (.ok .maybe, {m with stack := m.stack.push .conditionalContent args})
    else (.ok .maybe, {m with q := m.q.skipContent .conditionalContent})
  | .tag (.startIndentIfGroupBreaks gid) =>
    let groupMode := (m.st.groupModes.getPrintMode gid).getD args.mode
    match groupMode with
    | PrintMode.flat => (.ok .maybe, {m with stack := m.stack.push .indentIfGroupBreaks args})
    | PrintMode.expanded =>
      (.ok .maybe, {m with istack := m.istack.indent opts.indentStyle,
                           stack := m.stack.push .indentIfGroupBreaks args})
  | .tag .startLineSuffix =>
    (.ok .maybe, {m with q := m.q.skipContent .lineSuffix,
                         fs := {m.fs with hasLineSuffix := true}})
  | .tag .endLineSuffix => (.error (invalidEndTagErr .lineSuffix m.stack.topKind), m)
  | .tag .startFill => (.ok .maybe, {m with stack := m.stack.push .fill args})
  | .tag .startVerbatim => (.ok .maybe, {m with stack := m.stack.push .verbatim args})
  | .tag .startLabelled => (.ok .maybe, {m with stack := m.stack.push .labelled args})
  | .tag .startEntry => (.ok .maybe, {m with stack := m.stack.push .entry args})
  | .tag .endLabelled => fitsPop m .labelled
  | .tag .endEntry => fitsPop m .entry
  | .tag .endGroup => fitsPop m .group
  | .tag .endConditionalContent => fitsPop m .conditionalContent
  | .tag .endVerbatim => fitsPop m .verbatim
  | .tag .endFill => fitsPop m .fill
  | .tag (.endIndentIfGroupBreaks gid) =>
    let groupMode := (m.st.groupModes.getPrintMode gid).getD args.mode
    let m := if groupMode = PrintMode.expanded then {m with istack := m.istack.pop} else m
    fitsPop m .indentIfGroupBreaks
  | .tag .endIndent =>
    match m.stack.popChecked .indent with
    | .error e => (.error e, m)
    | .ok s => (.ok .maybe, {m with stack := s, istack := m.istack.pop})
  | .tag .endAlign =>
    match m.stack.popChecked .align with
    | .error e => (.error e, m)
    | .ok s => (.ok .maybe, {m with stack := s, istack := m.istack.pop})
  | .tag (.endDedent dm) =>
    let m := if dm = DedentMode.level then {m with istack := m.istack.endDedent} else m
    fitsPop m .dedent

/-- FitsEndPredicate: AllPredicate never stops; SingleEntryPredicate stops
once the matching EndEntry of the first entry has been consumed. -/
inductive FitsPred where
  | all
  | single (depth : Nat) (done : Bool)
deriving DecidableEq, Repr

/-- SingleEntryPredicate::is_done. -/
def FitsPred.isDone : FitsPred → Bool
  | .all => false
  | .single _ d => d

/-- FitsEndPredicate::is_end step: observe one consumed element and report
whether the measurement should stop here. -/
def FitsPred.isEnd : FitsPred → FormatElement → Bool × FitsPred
  | .all, _ => (false, .all)
  | .single depth dn, el =>
    match el with
    | .tag .startEntry => (false, .single (depth + 1) dn)
    | .tag .endEntry =>
      if depth ≤ 1 then (true, .single 0 true) else (false, .single (depth - 1) dn)
    | _ => (false, .single depth dn)

/-- FitsMeasurer::fits: walk the queue element by element until a definite
verdict, the stop predicate fires, or the document ends (both of the
latter count as fitting). -/
def fitsLoop : Nat → PrinterOptions → Bool → FitsPred → FitsM →
    Except PrintError Bool × FitsPred × FitsM
  | 0, _, _, pred, m => (.error .outOfFuel, pred, m)
  | fuel+1, opts, mbf, pred, m =>
    match m.q with
    | [] => (.ok true, pred, m)
    | el :: rest =>
      let step := fitsElement opts mbf {m with q := rest} el
      match step.1 with
      | .error e => (.error e, pred, step.2)
      | .ok .yes => (.ok true, pred, step.2)
      | .ok .no => (.ok false, pred, step.2)
      | .ok .maybe =>
        let pe := pred.isEnd el
        if pe.1 then (.ok true, pe.2, step.2)
        else fitsLoop fuel opts mbf pe.2 step.2

/-- FitsMeasurer::fill_entry_fits: measure one fill item or separator with
the given mode, under the must-be-flat constraint; the queue must be
positioned at a StartEntry tag. -/
def fillEntryFits (fuel : Nat) (opts : PrinterOptions) (mode : PrintMode) (m : FitsM) :
    Except PrintError Bool × FitsM :=
  match m.q.topEl with
  | some (.tag .startEntry) =>
    let m1 := {m with stack := m.stack.push .fill (m.stack.top.withMode mode)}
    let r := fitsLoop fuel opts true (.single 0 false) m1
    match r.1 with
    | .error e => (.error e, r.2.2)
    | .ok fits =>
      if r.2.1.isDone then
        match r.2.2.stack.popChecked .fill with
        | .error e => (.error e, r.2.2)
        | .ok s => (.ok fits, {r.2.2 with stack := s})
      else (.ok fits, r.2.2)
  | other => (.error (invalidStartTagErr .entry other), m)

/-- Printer::fits: create a measurer (not must-be-flat) from the current
printer state and run it over the whole remaining queue; only the group
modes it recorded survive into the returned printer state (the measurer is
finished and its shadow state dropped on every path). -/
def printerFits (fuel : Nat) (opts : PrinterOptions) (st : PState) (stack : CallStack)
    (istack : IndentStack) (q : Queue) : Except PrintError Bool × PState :=
  let r := fitsLoop fuel opts false .all (mkFitsM st stack istack q)
  (r.1, r.2.2.st)

/-- FillPairLayout from mod.rs: the four outcomes of measuring one fill
item/separator pair. -/
inductive FillPairLayout where
  | flat
  | itemFlatSeparatorExpanded
  | expanded
  | itemMaybeFlat
deriving DecidableEq, Repr

/-- Fill measurement inner loop of Printer::print_fill_entries: after the
first item measured flat, measure separator/item pairs until one does not
fit, counting the fully-flat pairs, and report the layout of the last
pair. -/
def fillMeasureLoop : Nat → PrinterOptions → FitsM → Nat →
    Except PrintError (Nat × FillPairLayout) × PState
  | 0, _, m, _ => (.error .outOfFuel, m.st)
  | fuel+1, opts, m, flatPairs =>
    if m.q.atStartEntry then
      let r := fillEntryFits fuel opts .flat m
      match r.1 with
      | .error e => (.error e, r.2.st)
      | .ok sepFits =>
        if sepFits then
          if r.2.q.atStartEntry then
            let r2 := fillEntryFits fuel opts .flat r.2
            match r2.1 with
            | .error e => (.error e, r2.2.st)
            | .ok itemFits =>
              if itemFits then fillMeasureLoop fuel opts r2.2 (flatPairs + 1)
              else (.ok (flatPairs, .itemFlatSeparatorExpanded), r2.2.st)
          else (.ok (flatPairs, .flat), r.2.st)
        else (.ok (flatPairs, .itemMaybeFlat), r.2.st)
    else (.ok (flatPairs, .flat), m.st)

/-- Fill measurement phase of one outer iteration of print_fill_entries:
a fresh must-be-flat measurer tests the current item, then the inner loop
measures the following pairs. -/
def fillMeasurePhase (fuel : Nat) (opts : PrinterOptions) (st : PState) (stack : CallStack)
    (istack : IndentStack) (q : Queue) : Except PrintError (Nat × FillPairLayout) × PState :=
  let m := mkFitsM st stack istack q
  let r := fillEntryFits fuel opts .flat m
  match r.1 with
  | .error e => (.error e, r.2.st)
  | .ok itemFits =>
    if itemFits then fillMeasureLoop fuel opts r.2 0
    else (.ok (0, .expanded), r.2.st)

/-- Item print-mode resolution of print_fill_entries: Flat and
ItemFlatSeparatorExpanded print the item flat, Expanded prints it
expanded, and ItemMaybeFlat re-measures (a fresh must-be-flat measurer:
the item again, asserted to fit, then the separator in Expanded mode) and
prints the item flat exactly when the separator fits expanded. -/
def resolveItemMode (fuel : Nat) (opts : PrinterOptions) (layout : FillPairLayout) (st : PState)
    (stack : CallStack) (istack : IndentStack) (q : Queue) : Except PrintError PrintMode × PState :=
  match layout with
  | .flat => (.ok .flat, st)
  | .itemFlatSeparatorExpanded => (.ok .flat, st)
  | .expanded => (.ok .expanded, st)
  | .itemMaybeFlat =>
    let m := mkFitsM st stack istack q
    let r := fillEntryFits fuel opts .flat m
    match r.1 with
    | .error e => (.error e, r.2.st)
    | .ok itemFits =>
      if itemFits then
        let r2 := fillEntryFits fuel opts .expanded r.2
        match r2.1 with
        | .error e => (.error e, r2.2.st)
        | .ok sepFits =>
          (.ok (if sepFits then PrintMode.flat else PrintMode.expanded), r2.2.st)
      else (.error .panicAssert, r.2.st)

/-- Separator print-mode of print_fill_entries: flat only for a fully-flat
last pair, expanded for the three other layouts. -/
def separatorModeOf : FillPairLayout → PrintMode
  | .flat => .flat
  | .itemFlatSeparatorExpanded => .expanded
  | .expanded => .expanded
  | .itemMaybeFlat => .expanded

/-- BestFittingElement::most_flat: the first (most compact) variant. -/
def mostFlatVariant (variants : List (List FormatElement)) : List FormatElement :=
  variants.head?.getD []

/-- BestFittingElement::most_expanded: the last variant. -/
def mostExpandedVariant (variants : List (List FormatElement)) : List FormatElement :=
  variants.getLast?.getD []

/-- Printer::flush_line_suffixes: drain the suffix store; when non-empty,
re-queue the triggering line break (if any) to be processed after the
suffix content, replay the indentation snapshots, and push the stored
entries back onto the queue/stack so the suffix content prints with the
args captured when it was queued. -/
def flushLineSuffixes (st : PState) (stack : CallStack) (istack : IndentStack) (q : Queue)
    (lineBreak : Option FormatElement) : PState × CallStack × IndentStack × Queue :=
  let suffixes := st.lineSuffixes
  let st := {st with lineSuffixes := []}
  if suffixes.isEmpty then (st, stack, istack, q)
  else
    let q := match lineBreak with
      | some lb => q.pushEl lb
      | none => q
    let istack := istack.flushSuffixes
    let p := suffixes.reverse.foldl (fun (p : CallStack × Queue) entry =>
      match entry with
      | LineSuffixEntry.suffixEl s => (p.1, p.2.pushEl s)
      | LineSuffixEntry.argsEntry a => (p.1.push .lineSuffix a, p.2.pushEl (.tag .endLineSuffix)))
      (stack, q)
    (st, p.1, istack, p.2)

/-- Helper for the plain End-tag arms of print_element: kind-checked pop of
the call stack. -/
def popSimpleTag (st : PState) (stack : CallStack) (istack : IndentStack) (q : Queue)
    (k : TagKind) : Except PrintError (PState × CallStack × IndentStack × Queue) :=
  match stack.popChecked k with
  | .error e => .error e
  | .ok s => .ok (st, s, istack, q)

mutual

/-- Printer::print / print_with_indent main loop: pop and print elements
until the cursor is empty, flushing remaining line suffixes whenever the
queue drains. -/
def printLoop : Nat → PrinterOptions → PState → CallStack → IndentStack → Queue →
    Except PrintError PState
  | 0, _, _, _, _, _ => .error .outOfFuel
  | fuel+1, opts, st, stack, istack, q =>
    match q with
    | [] => .ok st
    | el :: rest =>
      match printElement fuel opts st stack istack rest el with
      | .error e => .error e
      | .ok (st, stack, istack, q) =>
        if q.isEmpty then
          match flushLineSuffixes st stack istack q none with
          | (st, stack, istack, q) => printLoop fuel opts st stack istack q
        else printLoop fuel opts st stack istack q

/-- Printer::print_element, translated arm by arm from mod.rs.  The
StartVerbatim arm is the literal todo!() panic of the source. -/
def printElement : Nat → PrinterOptions → PState → CallStack → IndentStack → Queue →
    FormatElement → Except PrintError (PState × CallStack × IndentStack × Queue)
  | 0, _, _, _, _, _, _ => .error .outOfFuel
  | fuel+1, opts, st, stack, istack, q, element =>
    let args := stack.top
    match element with
    | .space =>
      .ok ((if st.lineWidth > 0 then {st with pendingSpace := true} else st), stack, istack, q)
    | .hardSpace =>
      .ok ((if st.lineWidth > 0 then {st with pendingSpace := true} else st), stack, istack, q)
    | .staticText t => .ok (printText opts st t, stack, istack, q)
    | .dynamicText t => .ok (printText opts st t, stack, istack, q)
    | .locatedTokenText t => .ok (printText opts st t, stack, istack, q)
    | .line lm =>
      if args.mode.isFlat ∧ (lm = LineMode.soft ∨ lm = LineMode.softOrSpace) then
        let st := if lm = LineMode.softOrSpace ∧ st.lineWidth > 0 then
            {st with pendingSpace := true} else st
        .ok (st, stack, istack, q)
      else
        let st := if args.mode.isFlat then {st with measuredGroupFits := false} else st
        if st.hasPendingSuffixes then
          .ok (flushLineSuffixes st stack istack q (some (.line lm)))
        else
          let st := if st.lineWidth > 0 then printStr opts st ['\n'] else st
          let st := if lm = LineMode.empty ∧ ¬st.hasEmptyLine then
              {printStr opts st ['\n'] with hasEmptyLine := true} else st
          let st := {st with pendingSpace := false, pendingIndent := istack.indention}
          .ok (st, stack, istack, q)
    | .expandParent => .ok (st, stack, istack, q)
    | .lineSuffixBoundary =>
      .ok (flushLineSuffixes st stack istack q (some (.line LineMode.hard)))
    | .bestFitting variants =>
      if args.mode.isFlat ∧ st.measuredGroupFits then
        printEntry fuel opts st stack istack (q.extendBack (mostFlatVariant variants)) args
      else
        printBFLoop fuel opts {st with measuredGroupFits := true} stack istack q args
          (mostExpandedVariant variants) variants.dropLast
    | .interned content => .ok (st, stack, istack, q.extendBack content)
    | .tag (.startGroup g) =>
      let modeRes : Except PrintError (PrintMode × PState) :=
        if g.isFlat then
          if args.mode.isFlat ∧ st.measuredGroupFits then .ok (PrintMode.flat, st)
          else
            let st := {st with measuredGroupFits := true}
            let st := match g.id with
              | some i => {st with groupModes := st.groupModes.insertPrintMode i PrintMode.flat}
              | none => st
            let stack1 := stack.push .group (args.withMode PrintMode.flat)
            let r := printerFits fuel opts st stack1 istack q
            match r.1 with
            | .error e => .error e
            | .ok true => .ok (PrintMode.flat, r.2)
            | .ok false => .ok (PrintMode.expanded, r.2)
        else .ok (PrintMode.expanded, st)
      match modeRes with
      | .error e => .error e
      | .ok (groupMode, st) =>
        let stack := stack.push .group (args.withMode groupMode)
        let st := match g.id with
          | some i => {st with groupModes := st.groupModes.insertPrintMode i groupMode}
          | none => st
        .ok (st, stack, istack, q)
    | .tag .startFill =>
      if st.measuredGroupFits ∧ args.mode.isFlat then
        .ok (st, stack.push .fill (args.withMode PrintMode.flat), istack, q)
      else
        printFillLoop fuel opts st (stack.push .fill args) istack q args
    | .tag .startIndent =>
      .ok (st, stack.push .indent args, istack.indent opts.indentStyle, q)
    | .tag (.startDedent dm) =>
      let istack := match dm with
        | DedentMode.level => istack.startDedent
        | DedentMode.root => istack.resetIndent
      .ok (st, stack.push .dedent args, istack, q)
    | .tag (.startAlign n) =>
      .ok (st, stack.push .align args, istack.alignBy n, q)
    | .tag (.startConditionalContent c) =>
      let gmRes : Except PrintError PrintMode := match c.groupId with
        | none => .ok args.mode
        | some gid =>
          match st.groupModes.getPrintMode gid with
          | some pm => .ok pm
          | none => .error .panicMissingGroupMode
      match gmRes with
      | .error e => .error e
      | .ok gm =>
        if gm = c.mode then .ok (st, stack.push .conditionalContent args, istack, q)
        else .ok (st, stack, istack, q.skipContent .conditionalContent)
    | .tag (.startIndentIfGroupBreaks gid) =>
      match st.groupModes.getPrintMode gid with
      | none => .error .panicMissingGroupMode
      | some gm =>
        let istack := if gm = PrintMode.expanded then istack.indent opts.indentStyle else istack
        .ok (st, stack.push .indentIfGroupBreaks args, istack, q)
    | .tag .startLineSuffix =>
      let istack := istack.pushSuffix istack.indention
      let r := q.iterContent .lineSuffix
      let st := {st with lineSuffixes :=
        st.lineSuffixes ++ r.1.map LineSuffixEntry.suffixEl ++ [LineSuffixEntry.argsEntry args]}
      .ok (st, stack, istack, r.2)
    | .tag .startVerbatim => .error .panicTodo
    | .tag .endVerbatim => popSimpleTag st stack istack q .verbatim
    | .tag .startLabelled => .ok (st, stack.push .labelled args, istack, q)
    | .tag .startEntry => .ok (st, stack.push .entry args, istack, q)
    | .tag .endLabelled => popSimpleTag st stack istack q .labelled
    | .tag .endEntry => popSimpleTag st stack istack q .entry
    | .tag .endGroup => popSimpleTag st stack istack q .group
    | .tag .endConditionalContent => popSimpleTag st stack istack q .conditionalContent
    | .tag .endFill => popSimpleTag st stack istack q .fill
    | .tag (.endIndentIfGroupBreaks gid) =>
      match st.groupModes.getPrintMode gid with
      | none => .error .panicMissingGroupMode
      | some gm =>
        let istack := if gm = PrintMode.expanded then istack.pop else istack
        popSimpleTag st stack istack q .indentIfGroupBreaks
    | .tag .endIndent =>
      match stack.popChecked .indent with
      | .error e => .error e
      | .ok s => .ok (st, s, istack.pop, q)
    | .tag .endAlign =>
      match stack.popChecked .align with
      | .error e => .error e
      | .ok s => .ok (st, s, istack.pop, q)
    | .tag .endLineSuffix =>
      match stack.popChecked .lineSuffix with
      | .error e => .error e
      | .ok s => .ok (st, s, istack.pop, q)
    | .tag (.endDedent dm) =>
      let istack := match dm with
        | DedentMode.level => istack.endDedent
        | DedentMode.root => istack.pop
      popSimpleTag st stack istack q .dedent

/-- Printer::print_entry: fully print one Entry-delimited region with the
given args; errors when the cursor is not at a StartEntry tag. -/
def printEntry : Nat → PrinterOptions → PState → CallStack → IndentStack → Queue →
    PrintElementArgs → Except PrintError (PState × CallStack × IndentStack × Queue)
  | 0, _, _, _, _, _, _ => .error .outOfFuel
  | fuel+1, opts, st, stack, istack, q, args =>
    if q.atStartEntry then printEntryLoop fuel opts st stack istack q args 0
    else .error (invalidStartTagErr .entry q.topEl)

/-- Inner loop of Printer::print_entry: track Entry nesting depth until the
matching EndEntry, printing everything in between. -/
def printEntryLoop : Nat → PrinterOptions → PState → CallStack → IndentStack → Queue →
    PrintElementArgs → Nat → Except PrintError (PState × CallStack × IndentStack × Queue)
  | 0, _, _, _, _, _, _, _ => .error .outOfFuel
  | fuel+1, opts, st, stack, istack, q, args, depth =>
    match q with
    | [] => .error (invalidEndTagErr .entry stack.topKind)
    | el :: rest =>
      match el with
      | .tag .startEntry =>
        if depth = 0 then
          printEntryLoop fuel opts st (stack.push .entry args) istack rest args 1
        else
          match printElement fuel opts st stack istack rest el with
          | .error e => .error e
          | .ok (st, stack, istack, q) =>
            printEntryLoop fuel opts st stack istack q args (depth + 1)
      | .tag .endEntry =>
        if depth = 1 then
          match stack.popChecked .entry with
          | .error e => .error e
          | .ok s => .ok (st, s, istack, rest)
        else
          match printElement fuel opts st stack istack rest el with
          | .error e => .error e
          | .ok (st, stack, istack, q) =>
            printEntryLoop fuel opts st stack istack q args (depth - 1)
      | _ =>
        match printElement fuel opts st stack istack rest el with
        | .error e => .error e
        | .ok (st, stack, istack, q) =>
          printEntryLoop fuel opts st stack istack q args depth

/-- Variant loop of Printer::print_best_fitting: speculatively insert each
non-last variant's content, measure it under a forced-flat Entry frame,
remove the insertion again, and print the first variant that fits; with no
variants left, print the last (most expanded) variant under Expanded mode
without measuring it. -/
def printBFLoop : Nat → PrinterOptions → PState → CallStack → IndentStack → Queue →
    PrintElementArgs → List FormatElement → List (List FormatElement) →
    Except PrintError (PState × CallStack × IndentStack × Queue)
  | 0, _, _, _, _, _, _, _, _ => .error .outOfFuel
  | fuel+1, opts, st, stack, istack, q, args, lastV, variants =>
    match variants with
    | [] =>
      printEntry fuel opts st stack istack (q.extendBack lastV) (args.withMode PrintMode.expanded)
    | v :: vs =>
      match v.head? with
      | some (.tag .startEntry) =>
        let entryArgs := args.withMode PrintMode.flat
        let content := v.tail
        let q1 := q.extendBack content
        let stack1 := stack.push .entry entryArgs
        let r := printerFits fuel opts st stack1 istack q1
        match r.1 with
        | .error e => .error e
        | .ok fits =>
          let q2 := q1.drop content.length
          if fits then printEntry fuel opts r.2 stack istack (Queue.extendBack q2 v) entryArgs
          else printBFLoop fuel opts r.2 stack istack q2 args lastV vs
      | other => .error (invalidStartTagErr .entry other)

/-- Outer loop of Printer::print_fill_entries: per item at the cursor,
measure the pair layout, print the counted flat pairs, resolve and print
the item, then the separator (under an extra flat Fill frame), and repeat;
at the end the cursor must sit at the EndFill tag. -/
def printFillLoop : Nat → PrinterOptions → PState → CallStack → IndentStack → Queue →
    PrintElementArgs → Except PrintError (PState × CallStack × IndentStack × Queue)
  | 0, _, _, _, _, _, _ => .error .outOfFuel
  | fuel+1, opts, st, stack, istack, q, args =>
    if q.atStartEntry then
      let mr := fillMeasurePhase fuel opts st stack istack q
      match mr.1 with
      | .error e => .error e
      | .ok (flatPairs, layout) =>
        let st := {mr.2 with measuredGroupFits := true}
        match printPairsFlat fuel flatPairs opts st stack istack q args with
        | .error e => .error e
        | .ok (st, stack, istack, q) =>
          let rm := resolveItemMode fuel opts layout st stack istack q
          match rm.1 with
          | .error e => .error e
          | .ok itemMode =>
            match printEntry fuel opts rm.2 stack istack q (args.withMode itemMode) with
            | .error e => .error e
            | .ok (st, stack, istack, q) =>
              if q.atStartEntry then
                let stack1 := stack.push .fill (args.withMode PrintMode.flat)
                match printEntry fuel opts st stack1 istack q
                    (args.withMode (separatorModeOf layout)) with
                | .error e => .error e
                | .ok (st, stack, istack, q) =>
                  match stack.popChecked .fill with
                  | .error e => .error e
                  | .ok stack => printFillLoop fuel opts st stack istack q args
              else printFillLoop fuel opts st stack istack q args
    else if q.atEndFill then .ok (st, stack, istack, q)
    else .error (invalidEndTagErr .fill stack.topKind)

/-- Flat-pair printing of print_fill_entries: print `n` item/separator
pairs, both in flat mode. -/
def printPairsFlat : Nat → Nat → PrinterOptions → PState → CallStack → IndentStack → Queue →
    PrintElementArgs → Except PrintError (PState × CallStack × IndentStack × Queue)
  | 0, _, _, _, _, _, _, _ => .error .outOfFuel
  | _+1, 0, _, st, stack, istack, q, _ => .ok (st, stack, istack, q)
  | fuel+1, n+1, opts, st, stack, istack, q, args =>
    match printEntry fuel opts st stack istack q (args.withMode PrintMode.flat) with
    | .error e => .error e
    | .ok (st, stack, istack, q) =>
      match printEntry fuel opts st stack istack q (args.withMode PrintMode.flat) with
      | .error e => .error e
      | .ok (st, stack, istack, q) => printPairsFlat fuel n opts st stack istack q args

end

/-- Printed: the result of a successful print call — the formatted text
plus the recorded verbatim byte ranges (offset, length). -/
structure Printed where
  buffer : String
  verbatimRanges : List (Nat × Nat)
deriving DecidableEq, Repr

/-- Printer::print_with_indent from mod.rs: run the main loop from a fresh
printer state, a call stack holding only the default (Expanded) root args,
and an indent stack rooted at the given level. -/
def printWithIndent (fuel : Nat) (opts : PrinterOptions) (doc : List FormatElement)
    (indent : Nat) : Except PrintError Printed :=
  match printLoop fuel opts PState.init ⟨PrintElementArgs.new, []⟩ ⟨[Indention.level indent], []⟩
      doc with
  | .error e => .error e
  | .ok st => .ok ⟨st.buffer, st.verbatimMarkers⟩

/-- Printer::print: print the whole document at indentation level 0. -/
def printDoc (fuel : Nat) (opts : PrinterOptions) (doc : List FormatElement) :
    Except PrintError Printed :=
  printWithIndent fuel opts doc 0


/-- Decidable equality for Except results, used to evaluate the printer on
concrete documents inside proofs. -/
instance {ε α : Type} [DecidableEq ε] [DecidableEq α] : DecidableEq (Except ε α) := fun x y =>
  match x, y with
  | Except.ok a, Except.ok b =>
    match decEq a b with
    | isTrue h => isTrue (h ▸ rfl)
    | isFalse h => isFalse (fun hc => h (Except.ok.inj hc))
  | Except.error a, Except.error b =>
    match decEq a b with
    | isTrue h => isTrue (h ▸ rfl)
    | isFalse h => isFalse (fun hc => h (Except.error.inj hc))
  | Except.ok _, Except.error _ => isFalse (fun hc => Except.noConfusion hc)
  | Except.error _, Except.ok _ => isFalse (fun hc => Except.noConfusion hc)

/-- Standard options used by the concrete examples: the given print width,
space indentation of width 2, and a bare line-feed line ending. -/
def stdOpts (w : Nat) : PrinterOptions := ⟨w, IndentStyle.space, 2, "\n"⟩

/-- Static text atom from a string literal. -/
def textEl (s : String) : FormatElement := .staticText s.data

/-- The boundary-example document of the spec: a flat-hinted group holding
the text foo, a SoftOrSpace line break, and the text barbaz. -/
def groupFooBarbazDoc : List FormatElement :=
  [.tag (.startGroup ⟨PrintMode.flat, none⟩), textEl "foo", .line .softOrSpace, textEl "barbaz",
   .tag .endGroup]

/-- A document whose only content is a Verbatim-tagged region. -/
def verbatimDoc : List FormatElement :=
  [.tag .startVerbatim, textEl "v", .tag .endVerbatim]

/-- Fill document with items a (containing a soft break) and b, separated
by the five-character separator xxxxx: at width 3 the item fits flat but
the separator fits in neither mode. -/
def fillSepTooWideDoc : List FormatElement :=
  [.tag .startFill,
   .tag .startEntry, textEl "a", .line .soft, .tag .endEntry,
   .tag .startEntry, textEl "xxxxx", .tag .endEntry,
   .tag .startEntry, textEl "b", .tag .endEntry,
   .tag .endFill]

/-- Fill document ending in a trailing separator (a comma followed by a
soft break) after its single item. -/
def fillTrailingSepDoc : List FormatElement :=
  [.tag .startFill,
   .tag .startEntry, textEl "a", .tag .endEntry,
   .tag .startEntry, textEl ",", .line .soft, .tag .endEntry,
   .tag .endFill]

/-- Call stack as it stands when print_fill_entries starts measuring: the
root args plus the Fill frame pushed with those args. -/
def fillEntryStack : CallStack := ⟨PrintElementArgs.new, [⟨.fill, PrintElementArgs.new⟩]⟩

/-- Indent stack rooted at level 0. -/
def rootIStack : IndentStack := ⟨[Indention.level 0], []⟩

/-- A document consisting of a hard space followed by the text a. -/
def hardSpaceDoc : List FormatElement := [.hardSpace, textEl "a"]

/-- C1.  The spec's output contract says print returns the formatted text
plus the list of verbatim byte ranges; the claim asserts that printing a
well-formed document containing a Verbatim region returns normally and
records that region's range.  The code's StartVerbatim arm is todo!(),
which panics before recording anything (the range-recording code is
commented out); the spec itself flags this path as an unfinished stub, so
the claim states the intended contract and the code is the defect.  This
theorem evaluates the printer at the failing input: any document reaching
a StartVerbatim tag makes print abort with the todo panic. -/
theorem verbatim_region_panics :
    printDoc 100 (stdOpts 80) verbatimDoc = .error .panicTodo := by decide

set_option maxHeartbeats 3000000 in
/-- C10.  The boundary example holds: at print width 10 the group document
Group(foo, SoftOrSpace, barbaz) renders flat as the ten-character line
foo barbaz with no internal line break, and at print width 9 it renders
expanded as foo, a line break, then barbaz. -/
theorem boundary_example_widths :
    printDoc 100 (stdOpts 10) groupFooBarbazDoc = .ok ⟨"foo barbaz", []⟩ ∧
    printDoc 100 (stdOpts 9) groupFooBarbazDoc = .ok ⟨"foo\nbarbaz", []⟩ :=
  ⟨by decide, by decide⟩

/-- C2 counterexample.  In the fill document at width 3, the first item
(the text a with a soft break) fits flat and the separator (xxxxx) does
not fit flat — the claim's precondition — yet the printer does not print
the item flat: the measure phase classifies the pair ItemMaybeFlat, the
item-mode resolution re-measures the separator in Expanded mode, finds it
still unfit, and resolves the item mode to Expanded; consequently the
item's soft break becomes a real line break and the output is the text a,
a line break, then xxxxxb — not the flat item the claim requires. -/
theorem fill_unfit_separator_counterexample :
    (fillEntryFits 100 (stdOpts 3) PrintMode.flat
        (mkFitsM PState.init fillEntryStack rootIStack fillSepTooWideDoc.tail)).1
      = Except.ok true ∧
    (fillEntryFits 100 (stdOpts 3) PrintMode.flat
        (fillEntryFits 100 (stdOpts 3) PrintMode.flat
          (mkFitsM PState.init fillEntryStack rootIStack fillSepTooWideDoc.tail)).2).1
      = Except.ok false ∧
    (fillMeasurePhase 100 (stdOpts 3) PState.init fillEntryStack rootIStack
        fillSepTooWideDoc.tail).1 = Except.ok (0, FillPairLayout.itemMaybeFlat) ∧
    (resolveItemMode 100 (stdOpts 3) FillPairLayout.itemMaybeFlat PState.init fillEntryStack
        rootIStack fillSepTooWideDoc.tail).1 = Except.ok PrintMode.expanded ∧
    printDoc 100 (stdOpts 3) fillSepTooWideDoc = .ok ⟨"a\nxxxxxb", []⟩ :=
  ⟨by decide, by decide, by decide, by decide, by decide⟩

/-- C2 as amended.  When an item fits flat but its separator does not fit
flat (layout ItemMaybeFlat), the printer re-measures the separator in
Expanded mode: the item is printed flat exactly when that re-measure
succeeds and expanded otherwise, and the separator is printed expanded in
either case. -/
theorem fill_item_maybe_flat_remeasure (fuel : Nat) (opts : PrinterOptions) (st : PState)
    (stack : CallStack) (istack : IndentStack) (q : Queue) (b : Bool)
    (h1 : (fillEntryFits fuel opts PrintMode.flat (mkFitsM st stack istack q)).1 = Except.ok true)
    (h2 : (fillEntryFits fuel opts PrintMode.expanded
        (fillEntryFits fuel opts PrintMode.flat (mkFitsM st stack istack q)).2).1
      = Except.ok b) :
    (resolveItemMode fuel opts FillPairLayout.itemMaybeFlat st stack istack q).1
      = Except.ok (if b then PrintMode.flat else PrintMode.expanded) ∧
    separatorModeOf FillPairLayout.itemMaybeFlat = PrintMode.expanded := by
  refine ⟨?_, rfl⟩
  unfold resolveItemMode
  rcases hp : fillEntryFits fuel opts PrintMode.flat (mkFitsM st stack istack q) with ⟨r1, m1⟩
  rw [hp] at h1 h2
  simp only at h1
  subst h1
  rcases hp2 : fillEntryFits fuel opts PrintMode.expanded m1 with ⟨r2, m2⟩
  rw [hp2] at h2
  simp only at h2
  subst h2
  simp [hp, hp2]

/-- C2 amended, witnessed at the counterexample document: the separator
does not fit expanded either, so the item mode resolves to Expanded. -/
theorem fill_item_maybe_flat_remeasure_witness :
    (resolveItemMode 100 (stdOpts 3) FillPairLayout.itemMaybeFlat PState.init fillEntryStack
        rootIStack fillSepTooWideDoc.tail).1 = Except.ok PrintMode.expanded ∧
    separatorModeOf FillPairLayout.itemMaybeFlat = PrintMode.expanded :=
  fill_item_maybe_flat_remeasure 100 (stdOpts 3) PState.init fillEntryStack rootIStack
    fillSepTooWideDoc.tail false (by decide) (by decide)

/-- C3 counterexample.  In the fill document whose single item is followed
by a trailing separator (a comma with a soft break) and nothing else, at
width 10 both the item and the separator fit flat and no item follows —
the claim's precondition — and the separator would also fit in Expanded
mode, so the claimed behavior would print the separator expanded, turning
its soft break into a real break (output ending in a line break).  The
code instead classifies the pair Flat without any Expanded re-measure and
prints both item and separator flat: the output is exactly the two
characters a and comma, with the soft break elided. -/
theorem fill_trailing_separator_counterexample :
    (fillEntryFits 100 (stdOpts 10) PrintMode.flat
        (mkFitsM PState.init fillEntryStack rootIStack fillTrailingSepDoc.tail)).1
      = Except.ok true ∧
    (fillEntryFits 100 (stdOpts 10) PrintMode.flat
        (fillEntryFits 100 (stdOpts 10) PrintMode.flat
          (mkFitsM PState.init fillEntryStack rootIStack fillTrailingSepDoc.tail)).2).1
      = Except.ok true ∧
    Queue.atStartEntry (fillEntryFits 100 (stdOpts 10) PrintMode.flat
        (fillEntryFits 100 (stdOpts 10) PrintMode.flat
          (mkFitsM PState.init fillEntryStack rootIStack fillTrailingSepDoc.tail)).2).2.q
      = false ∧
    (fillEntryFits 100 (stdOpts 10) PrintMode.expanded
        (fillEntryFits 100 (stdOpts 10) PrintMode.flat
          (mkFitsM PState.init fillEntryStack rootIStack fillTrailingSepDoc.tail)).2).1
      = Except.ok true ∧
    (fillMeasurePhase 100 (stdOpts 10) PState.init fillEntryStack rootIStack
        fillTrailingSepDoc.tail).1 = Except.ok (0, FillPairLayout.flat) ∧
    separatorModeOf FillPairLayout.flat = PrintMode.flat ∧
    printDoc 100 (stdOpts 10) fillTrailingSepDoc = .ok ⟨"a,", []⟩ :=
  ⟨by decide, by decide, by decide, by decide, by decide, by decide, by decide⟩

/-- C3 as amended.  When the current item fits flat, the following
separator fits flat, and no further item follows (the fill ends after the
separator), the measure loop classifies the pair Flat — no Expanded
re-measure happens — and both the item and the separator are printed
flat. -/
theorem fill_end_of_fill_prints_flat (fuel : Nat) (opts : PrinterOptions) (m : FitsM)
    (flatPairs : Nat) (st' : PState) (stack' : CallStack) (istack' : IndentStack) (q' : Queue)
    (hsep : Queue.atStartEntry m.q = true)
    (hfit : (fillEntryFits fuel opts PrintMode.flat m).1 = Except.ok true)
    (hend : Queue.atStartEntry ((fillEntryFits fuel opts PrintMode.flat m).2).q = false) :
    fillMeasureLoop (fuel + 1) opts m flatPairs
      = (Except.ok (flatPairs, FillPairLayout.flat),
         ((fillEntryFits fuel opts PrintMode.flat m).2).st) ∧
    resolveItemMode fuel opts FillPairLayout.flat st' stack' istack' q'
      = (Except.ok PrintMode.flat, st') ∧
    separatorModeOf FillPairLayout.flat = PrintMode.flat := by
  refine ⟨?_, rfl, rfl⟩
  unfold fillMeasureLoop
  rcases hp : fillEntryFits fuel opts PrintMode.flat m with ⟨r1, m1⟩
  rw [hp] at hfit hend
  simp only at hfit
  subst hfit
  simp [hsep, hp, hend]

/-- C3 amended, witnessed at the trailing-separator document. -/
theorem fill_end_of_fill_prints_flat_witness :
    fillMeasureLoop 100 (stdOpts 10)
        (fillEntryFits 99 (stdOpts 10) PrintMode.flat
          (mkFitsM PState.init fillEntryStack rootIStack fillTrailingSepDoc.tail)).2 0
      = (Except.ok (0, FillPairLayout.flat),
         ((fillEntryFits 99 (stdOpts 10) PrintMode.flat
            (fillEntryFits 99 (stdOpts 10) PrintMode.flat
              (mkFitsM PState.init fillEntryStack rootIStack fillTrailingSepDoc.tail)).2).2).st) ∧
    resolveItemMode 99 (stdOpts 10) FillPairLayout.flat PState.init fillEntryStack rootIStack
        fillTrailingSepDoc.tail = (Except.ok PrintMode.flat, PState.init) ∧
    separatorModeOf FillPairLayout.flat = PrintMode.flat :=
  fill_end_of_fill_prints_flat 99 (stdOpts 10)
    (fillEntryFits 99 (stdOpts 10) PrintMode.flat
      (mkFitsM PState.init fillEntryStack rootIStack fillTrailingSepDoc.tail)).2 0
    PState.init fillEntryStack rootIStack fillTrailingSepDoc.tail
    (by decide) (by decide) (by decide)

/-- C4 counterexample.  At the start of a line (line width 0) a HardSpace
does not contribute a column and is elided from the output during real
printing: the document consisting of a hard space and the text a prints
as just a (not as a space followed by a). -/
theorem hard_space_elided_counterexample :
    printDoc 100 (stdOpts 80) hardSpaceDoc = .ok ⟨"a", []⟩ ∧ ("a" : String) ≠ " a" :=
  ⟨by decide, by decide⟩

/-- C4 as amended.  In real printing a HardSpace behaves exactly like a
plain Space: it becomes a single pending coalesced space only when the
current line is non-empty and is elided at the start of a line.  Only in
fits measurement does a HardSpace always count one column and fail the
measurement immediately when it pushes the width past the limit. -/
theorem hard_space_behavior (fuel : Nat) (opts : PrinterOptions) (st : PState)
    (stack : CallStack) (istack : IndentStack) (q : Queue) (mbf : Bool) (m : FitsM) :
    printElement (fuel + 1) opts st stack istack q FormatElement.hardSpace
      = .ok ((if st.lineWidth > 0 then {st with pendingSpace := true} else st),
             stack, istack, q) ∧
    printElement (fuel + 1) opts st stack istack q FormatElement.hardSpace
      = printElement (fuel + 1) opts st stack istack q FormatElement.space ∧
    fitsElement opts mbf m FormatElement.hardSpace
      = (if m.fs.lineWidth + 1 > opts.printWidth
         then (Except.ok Fits.no, {m with fs := {m.fs with lineWidth := m.fs.lineWidth + 1}})
         else (Except.ok Fits.maybe,
               {m with fs := {m.fs with lineWidth := m.fs.lineWidth + 1}})) := by
  refine ⟨rfl, rfl, ?_⟩
  simp only [fitsElement]

/-- C5.  During fits measurement in a flat evaluation context — whether or
not the must-stay-flat constraint of fill measurement is active — a Hard
or Empty line break yields an immediate Yes, a Soft break is a no-op, and
a SoftOrSpace break becomes a pending space. -/
theorem fits_flat_line_breaks (opts : PrinterOptions) (mbf : Bool) (m : FitsM)
    (h : (CallStack.top m.stack).mode = PrintMode.flat) :
    fitsElement opts mbf m (.line .hard) = (Except.ok Fits.yes, m) ∧
    fitsElement opts mbf m (.line .empty) = (Except.ok Fits.yes, m) ∧
    fitsElement opts mbf m (.line .soft) = (Except.ok Fits.maybe, m) ∧
    fitsElement opts mbf m (.line .softOrSpace)
      = (Except.ok Fits.maybe, {m with fs := {m.fs with pendingSpace := true}}) := by
  refine ⟨?_, ?_, ?_, ?_⟩ <;> simp [fitsElement, h, PrintMode.isFlat]

/-- C5 witnessed at a concrete measurer whose context mode is Flat and
whose must-stay-flat flag is set. -/
theorem fits_flat_line_breaks_witness :
    fitsElement (stdOpts 10) true (mkFitsM PState.init ⟨⟨PrintMode.flat⟩, []⟩ rootIStack [])
        (.line .hard)
      = (Except.ok Fits.yes, mkFitsM PState.init ⟨⟨PrintMode.flat⟩, []⟩ rootIStack []) ∧
    fitsElement (stdOpts 10) true (mkFitsM PState.init ⟨⟨PrintMode.flat⟩, []⟩ rootIStack [])
        (.line .empty)
      = (Except.ok Fits.yes, mkFitsM PState.init ⟨⟨PrintMode.flat⟩, []⟩ rootIStack []) ∧
    fitsElement (stdOpts 10) true (mkFitsM PState.init ⟨⟨PrintMode.flat⟩, []⟩ rootIStack [])
        (.line .soft)
      = (Except.ok Fits.maybe, mkFitsM PState.init ⟨⟨PrintMode.flat⟩, []⟩ rootIStack []) ∧
    fitsElement (stdOpts 10) true (mkFitsM PState.init ⟨⟨PrintMode.flat⟩, []⟩ rootIStack [])
        (.line .softOrSpace)
      = (Except.ok Fits.maybe,
         {mkFitsM PState.init ⟨⟨PrintMode.flat⟩, []⟩ rootIStack [] with
            fs := {(mkFitsM PState.init ⟨⟨PrintMode.flat⟩, []⟩ rootIStack []).fs with
                     pendingSpace := true}}) :=
  fits_flat_line_breaks (stdOpts 10) true
    (mkFitsM PState.init ⟨⟨PrintMode.flat⟩, []⟩ rootIStack []) rfl

/-- The atStartEntry test holds exactly when the queue's first element is a
StartEntry tag. -/
lemma atStartEntry_iff (q : Queue) :
    Queue.atStartEntry q = true ↔ q.head? = some (FormatElement.tag Tag.startEntry) := by
  cases q with
  | nil => simp [Queue.atStartEntry]
  | cons el rest =>
    cases el with
    | tag t => cases t <;> simp [Queue.atStartEntry]
    | _ => simp [Queue.atStartEntry]

/-- Root call stack of a fresh print call: default Expanded args, no open
frames. -/
def rootStack : CallStack := ⟨PrintElementArgs.new, []⟩

/-- A best-fitting variant that fits at width 3 (two characters). -/
def bfVariantFit : List FormatElement := [.tag .startEntry, textEl "ab", .tag .endEntry]

/-- A best-fitting variant that does not fit at width 3 (five characters). -/
def bfVariantNoFit : List FormatElement := [.tag .startEntry, textEl "abcde", .tag .endEntry]

/-- C6.  Best-fitting selection: when the flat fits-cache shortcut does not
apply, the element hands the variants minus the last to the variant loop;
each non-last variant is speculatively inserted (its content without the
leading StartEntry), measured under an Entry frame forced to Flat, and the
insertion dropped again, leaving the queue as before; the first variant
that fits is printed under the forced-flat args; and once the non-last
variants are exhausted the last (most expanded) variant is printed under
Expanded mode unconditionally — the equation for that branch contains no
measurement, so the most expanded variant is accepted without ever being
measured, even if it exceeds the print width. -/
theorem best_fitting_selection (fuel : Nat) (opts : PrinterOptions) (st : PState)
    (stack : CallStack) (istack : IndentStack) (q : Queue) (args : PrintElementArgs)
    (lastV v : List FormatElement) (vs variants : List (List FormatElement)) :
    (printBFLoop (fuel + 1) opts st stack istack q args lastV []
      = printEntry fuel opts st stack istack (q.extendBack lastV)
          (args.withMode PrintMode.expanded)) ∧
    (v.head? = some (.tag .startEntry) →
      (printerFits fuel opts st (stack.push .entry (args.withMode PrintMode.flat)) istack
          (q.extendBack v.tail)).1 = Except.ok false →
      printBFLoop (fuel + 1) opts st stack istack q args lastV (v :: vs)
        = printBFLoop fuel opts
            (printerFits fuel opts st (stack.push .entry (args.withMode PrintMode.flat)) istack
              (q.extendBack v.tail)).2 stack istack q args lastV vs) ∧
    (v.head? = some (.tag .startEntry) →
      (printerFits fuel opts st (stack.push .entry (args.withMode PrintMode.flat)) istack
          (q.extendBack v.tail)).1 = Except.ok true →
      printBFLoop (fuel + 1) opts st stack istack q args lastV (v :: vs)
        = printEntry fuel opts
            (printerFits fuel opts st (stack.push .entry (args.withMode PrintMode.flat)) istack
              (q.extendBack v.tail)).2 stack istack (q.extendBack v)
            (args.withMode PrintMode.flat)) ∧
    (Queue.atStartEntry v = false →
      printBFLoop (fuel + 1) opts st stack istack q args lastV (v :: vs)
        = .error (invalidStartTagErr .entry v.head?)) ∧
    (¬((CallStack.top stack).mode.isFlat = true ∧ st.measuredGroupFits = true) →
      printElement (fuel + 1) opts st stack istack q (.bestFitting variants)
        = printBFLoop fuel opts {st with measuredGroupFits := true} stack istack q
            (CallStack.top stack) (mostExpandedVariant variants) variants.dropLast) := by
  have hdrop : (Queue.extendBack q v.tail).drop v.tail.length = q := by
    simp [Queue.extendBack]
  refine ⟨rfl, ?_, ?_, ?_, ?_⟩
  · intro hv hfits
    rcases hp : printerFits fuel opts st (stack.push .entry (args.withMode PrintMode.flat)) istack
        (q.extendBack v.tail) with ⟨r1, st1⟩
    rw [hp] at hfits
    simp only at hfits
    subst hfits
    simp only [printBFLoop, hv, hp, hdrop]
    simp
  · intro hv hfits
    rcases hp : printerFits fuel opts st (stack.push .entry (args.withMode PrintMode.flat)) istack
        (q.extendBack v.tail) with ⟨r1, st1⟩
    rw [hp] at hfits
    simp only at hfits
    subst hfits
    simp only [printBFLoop, hv, hp, hdrop]
    simp
  · intro hne
    rcases hv : v.head? with _ | el
    · simp only [printBFLoop, hv]
    · cases el with
      | tag t =>
        cases t
        case startEntry => exact absurd ((atStartEntry_iff v).mpr hv) (by simp [hne])
        all_goals simp only [printBFLoop, hv]
      | _ => simp only [printBFLoop, hv]
  · intro hnc
    simp only [printElement]
    rw [if_neg hnc]

/-- C6 witnessed: at width 3, a five-character variant measures unfit and
the loop moves on with the queue restored, while a two-character variant
measures fit and is printed flat. -/
theorem best_fitting_selection_witness :
    (printBFLoop 101 (stdOpts 3) PState.init rootStack rootIStack [] PrintElementArgs.new []
        (bfVariantNoFit :: [])
      = printBFLoop 100 (stdOpts 3)
          (printerFits 100 (stdOpts 3) PState.init
            (rootStack.push .entry (PrintElementArgs.new.withMode PrintMode.flat)) rootIStack
            (Queue.extendBack [] bfVariantNoFit.tail)).2
          rootStack rootIStack [] PrintElementArgs.new [] []) ∧
    (printBFLoop 101 (stdOpts 3) PState.init rootStack rootIStack [] PrintElementArgs.new []
        (bfVariantFit :: [])
      = printEntry 100 (stdOpts 3)
          (printerFits 100 (stdOpts 3) PState.init
            (rootStack.push .entry (PrintElementArgs.new.withMode PrintMode.flat)) rootIStack
            (Queue.extendBack [] bfVariantFit.tail)).2
          rootStack rootIStack (Queue.extendBack [] bfVariantFit)
          (PrintElementArgs.new.withMode PrintMode.flat)) :=
  ⟨(best_fitting_selection 100 (stdOpts 3) PState.init rootStack rootIStack []
      PrintElementArgs.new [] bfVariantNoFit [] []).2.1 rfl (by decide),
   (best_fitting_selection 100 (stdOpts 3) PState.init rootStack rootIStack []
      PrintElementArgs.new [] bfVariantFit [] []).2.2.1 rfl (by decide)⟩

/-- C9.  Malformed-document detection is eager and final: popping an End
tag over an empty stack yields the missing-start-tag error and over a
mismatched top frame the start/end-mismatch error; an EndGroup element in
print_element surfaces that error unchanged; fill-item/separator or
best-fitting printing (print_entry) and fill measurement started anywhere
other than a StartEntry tag yield the expected-start error naming what was
found; and a whole print call whose first element is an unmatched End tag
returns the error immediately — independent of everything after it, so
nothing further is processed and no output is returned. -/
theorem invalid_document_errors (root : PrintElementArgs) (k : TagKind) (f : StackFrame)
    (frames : List StackFrame) (fuel : Nat) (opts : PrinterOptions) (st : PState)
    (stack : CallStack) (istack : IndentStack) (q rest : Queue) (args : PrintElementArgs) :
    (CallStack.popChecked ⟨root, []⟩ k = .error (.invalidDocument (.startTagMissing k))) ∧
    (f.kind ≠ k → CallStack.popChecked ⟨root, f :: frames⟩ k
      = .error (.invalidDocument (.startEndTagMismatch k f.kind))) ∧
    (∀ e, stack.popChecked .group = .error e →
      printElement (fuel + 1) opts st stack istack q (.tag .endGroup) = .error e) ∧
    (Queue.atStartEntry q = false →
      printEntry (fuel + 1) opts st stack istack q args
        = .error (invalidStartTagErr .entry q.head?)) ∧
    (Queue.atStartEntry q = false →
      (fillEntryFits fuel opts PrintMode.flat (mkFitsM st stack istack q)).1
        = .error (invalidStartTagErr .entry q.head?)) ∧
    (printDoc (fuel + 2) opts (.tag .endGroup :: rest)
      = .error (.invalidDocument (.startTagMissing .group))) := by
  refine ⟨rfl, ?_, ?_, ?_, ?_, ?_⟩
  · intro hne
    simp [CallStack.popChecked, hne, invalidEndTagErr]
  · intro e he
    simp only [printElement, popSimpleTag, he]
  · intro hne
    simp only [printEntry, hne, Bool.false_eq_true, if_false]
    rfl
  · intro hne
    rcases q with _ | ⟨el, rest⟩
    · rfl
    · cases el with
      | tag t =>
        cases t
        case startEntry => simp [Queue.atStartEntry] at hne
        all_goals rfl
      | _ => rfl
  · simp [printDoc, printWithIndent, printLoop, printElement, popSimpleTag,
      CallStack.popChecked, invalidEndTagErr]

/-- C9 witnessed at concrete inputs: a mismatched Indent pop, an EndGroup
over an Entry frame, entry printing and fill measurement at an EndFill
tag, and a document starting with a bare EndGroup. -/
theorem invalid_document_errors_witness :
    (CallStack.popChecked ⟨PrintElementArgs.new, [⟨.entry, PrintElementArgs.new⟩]⟩ .indent
      = .error (.invalidDocument (.startEndTagMismatch .indent .entry))) ∧
    (printElement 10 (stdOpts 3) PState.init
        ⟨PrintElementArgs.new, [⟨.entry, PrintElementArgs.new⟩]⟩ rootIStack []
        (.tag .endGroup)
      = .error (.invalidDocument (.startEndTagMismatch .group .entry))) ∧
    (printEntry 10 (stdOpts 3) PState.init rootStack rootIStack [.tag .endFill]
        PrintElementArgs.new
      = .error (invalidStartTagErr .entry (some (.tag .endFill)))) ∧
    ((fillEntryFits 9 (stdOpts 3) PrintMode.flat
        (mkFitsM PState.init rootStack rootIStack [.tag .endFill])).1
      = .error (invalidStartTagErr .entry (some (.tag .endFill)))) ∧
    (printDoc 11 (stdOpts 3) [.tag .endGroup, textEl "zzz"]
      = .error (.invalidDocument (.startTagMissing .group))) :=
  ⟨(invalid_document_errors PrintElementArgs.new .indent ⟨.entry, PrintElementArgs.new⟩ []
      9 (stdOpts 3) PState.init rootStack rootIStack [] [] PrintElementArgs.new).2.1
      (by decide),
   (invalid_document_errors PrintElementArgs.new .indent ⟨.entry, PrintElementArgs.new⟩ []
      9 (stdOpts 3) PState.init
      ⟨PrintElementArgs.new, [⟨.entry, PrintElementArgs.new⟩]⟩ rootIStack [] []
      PrintElementArgs.new).2.2.1 _ rfl,
   (invalid_document_errors PrintElementArgs.new .indent ⟨.entry, PrintElementArgs.new⟩ []
      9 (stdOpts 3) PState.init rootStack rootIStack [.tag .endFill] []
      PrintElementArgs.new).2.2.2.1 (by decide),
   (invalid_document_errors PrintElementArgs.new .indent ⟨.entry, PrintElementArgs.new⟩ []
      9 (stdOpts 3) PState.init rootStack rootIStack [.tag .endFill] []
      PrintElementArgs.new).2.2.2.2.1 (by decide),
   (invalid_document_errors PrintElementArgs.new .indent ⟨.entry, PrintElementArgs.new⟩ []
      9 (stdOpts 3) PState.init rootStack rootIStack [] [textEl "zzz"]
      PrintElementArgs.new).2.2.2.2.2⟩

/-- Per-element core-state preservation of the fits measurer: one
fits_element step never changes the printer's output buffer, line width or
pending indentation (only the group-mode table can change). -/
lemma fitsElement_preserves_core (opts : PrinterOptions) (mbf : Bool) (m : FitsM)
    (el : FormatElement) :
    (fitsElement opts mbf m el).2.st.buffer = m.st.buffer ∧
    (fitsElement opts mbf m el).2.st.lineWidth = m.st.lineWidth ∧
    (fitsElement opts mbf m el).2.st.pendingIndent = m.st.pendingIndent := by
  cases el with
  | tag t =>
    cases t <;> (simp only [fitsElement, fitsPop]; repeat' split) <;> simp_all
  | _ =>
    (simp only [fitsElement, fitsPop]; repeat' split) <;> simp_all

/-- Whole-measurement core-state preservation: however many elements the
fits loop consumes, and whatever its verdict (fits, does not fit, an
invalid-document error, or fuel exhaustion), the printer state it hands
back agrees with the input state on buffer, line width and pending
indentation. -/
lemma fitsLoop_preserves_core (fuel : Nat) (opts : PrinterOptions) (mbf : Bool) :
    ∀ (pred : FitsPred) (m : FitsM),
    (fitsLoop fuel opts mbf pred m).2.2.st.buffer = m.st.buffer ∧
    (fitsLoop fuel opts mbf pred m).2.2.st.lineWidth = m.st.lineWidth ∧
    (fitsLoop fuel opts mbf pred m).2.2.st.pendingIndent = m.st.pendingIndent := by
  induction fuel with
  | zero => intro pred m; simp [fitsLoop]
  | succ n ih =>
    intro pred m
    rw [fitsLoop]
    rcases hq : m.q with _ | ⟨el, rest⟩
    · simp
    · dsimp only
      rcases hs : fitsElement opts mbf {m with q := rest} el with ⟨r, m1⟩
      have h1 := fitsElement_preserves_core opts mbf {m with q := rest} el
      rw [hs] at h1
      simp only at h1
      dsimp only
      rcases r with e | f
      · simpa using h1
      · cases f with
        | yes => simpa using h1
        | no => simpa using h1
        | maybe =>
          rcases hpe : FitsPred.isEnd pred el with ⟨stop, pred1⟩
          cases stop with
          | true => simpa using h1
          | false =>
            simp only [if_true, if_false, Bool.false_eq_true, Bool.true_eq_false, ite_false,
              ite_true]
            have h2 := ih pred1 m1
            exact ⟨h2.1.trans h1.1, (h2.2.1).trans h1.2.1, (h2.2.2).trans h1.2.2⟩

/-- C7.  A fits measurement run from any printer state leaves the
printer's output buffer, current line width and pending indentation
exactly as they were — for every outcome, fitting or not (and even on an
error path), since the measurer works on a snapshot and touches the real
printer state only through the group-mode table. -/
theorem fits_measurement_preserves_printer (fuel : Nat) (opts : PrinterOptions) (st : PState)
    (stack : CallStack) (istack : IndentStack) (q : Queue) :
    (printerFits fuel opts st stack istack q).2.buffer = st.buffer ∧
    (printerFits fuel opts st stack istack q).2.lineWidth = st.lineWidth ∧
    (printerFits fuel opts st stack istack q).2.pendingIndent = st.pendingIndent := by
  have h := fitsLoop_preserves_core fuel opts false .all (mkFitsM st stack istack q)
  simpa [printerFits, mkFitsM] using h

/-- Inserting a print mode into the group-mode table makes that id's slot
hold exactly that mode. -/
lemma getPrintMode_insert_self (l : GroupModes) (i : Nat) (pm : PrintMode) :
    GroupModes.getPrintMode (GroupModes.insertPrintMode l i pm) i = some pm := by
  simp only [GroupModes.insertPrintMode, GroupModes.getPrintMode]
  have hlen : i < (if l.length ≤ i then l ++ List.replicate (i + 1 - l.length) none
      else l).length := by
    split
    · simp only [List.length_append, List.length_replicate]
      omega
    · omega
  rw [List.get?_set_eq_of_lt _ hlen]
  rfl

/-- Inserting into the group-mode table never erases an existing entry. -/
lemma getPrintMode_insert_mono (l : GroupModes) (i j : Nat) (pm : PrintMode)
    (h : (GroupModes.getPrintMode l j).isSome = true) :
    (GroupModes.getPrintMode (GroupModes.insertPrintMode l i pm) j).isSome = true := by
  by_cases hij : i = j
  · subst hij
    rw [getPrintMode_insert_self]
    rfl
  · simp only [GroupModes.insertPrintMode, GroupModes.getPrintMode] at *
    rw [List.get?_set_ne _ _ hij]
    rcases hg : l.get? j with _ | v
    · rw [hg] at h
      simp at h
    · have hj : j < l.length := by
        by_contra hc
        rw [List.get?_eq_none.mpr (by omega)] at hg
        cases hg
      split
      · rw [List.get?_append hj, hg]
        rw [hg] at h
        exact h
      · rw [hg]
        rw [hg] at h
        exact h

/-- The measurer state produced by one fits_element step on an identified
group start (not under must-be-flat): the group frame is pushed and the
group's speculative mode recorded in the printer's group-mode table. -/
def fitsGroupStep (m : FitsM) (gmode : PrintMode) (g : Nat) : FitsM :=
  let groupMode := if GroupTag.isFlat ⟨gmode, some g⟩ then (CallStack.top m.stack).mode
                   else PrintMode.expanded
  {m with stack := m.stack.push .group ((CallStack.top m.stack).withMode groupMode),
          st := {m.st with groupModes := m.st.groupModes.insertPrintMode g groupMode}}

/-- Equation for fits_element on an identified group start when the
must-be-flat flag is off (as in Printer::fits). -/
lemma fitsElement_startGroup_eq (opts : PrinterOptions) (m : FitsM) (gmode : PrintMode)
    (g : Nat) :
    fitsElement opts false m (.tag (.startGroup ⟨gmode, some g⟩))
      = (.ok .maybe, fitsGroupStep m gmode g) := by
  simp only [fitsElement, fitsGroupStep, Bool.false_eq_true, false_and, if_false]

/-- One fits_element step never removes an entry from the printer's
group-mode table. -/
lemma fitsElement_gm_mono (opts : PrinterOptions) (mbf : Bool) (m : FitsM)
    (el : FormatElement) (g : Nat)
    (h : (GroupModes.getPrintMode m.st.groupModes g).isSome = true) :
    (GroupModes.getPrintMode (fitsElement opts mbf m el).2.st.groupModes g).isSome = true := by
  cases el with
  | tag t =>
    cases t <;> (simp only [fitsElement, fitsPop]; repeat' split) <;>
      simp_all [getPrintMode_insert_mono]
  | _ =>
    (simp only [fitsElement, fitsPop]; repeat' split) <;> simp_all

/-- The whole fits loop never removes an entry from the printer's
group-mode table. -/
lemma fitsLoop_gm_mono (fuel : Nat) (opts : PrinterOptions) (mbf : Bool) :
    ∀ (pred : FitsPred) (m : FitsM) (g : Nat),
    (GroupModes.getPrintMode m.st.groupModes g).isSome = true →
    (GroupModes.getPrintMode (fitsLoop fuel opts mbf pred m).2.2.st.groupModes g).isSome
      = true := by
  induction fuel with
  | zero => intro pred m g h; simpa [fitsLoop] using h
  | succ n ih =>
    intro pred m g h
    rw [fitsLoop]
    rcases hq : m.q with _ | ⟨el, rest⟩
    · simpa using h
    · dsimp only
      rcases hs : fitsElement opts mbf {m with q := rest} el with ⟨r, m1⟩
      have h1 := fitsElement_gm_mono opts mbf {m with q := rest} el g (by simpa using h)
      rw [hs] at h1
      simp only at h1
      dsimp only
      rcases r with e | f
      · simpa using h1
      · cases f with
        | yes => simpa using h1
        | no => simpa using h1
        | maybe =>
          rcases hpe : FitsPred.isEnd pred el with ⟨stop, pred1⟩
          cases stop with
          | true => simpa using h1
          | false =>
            simp only [if_true, if_false, Bool.false_eq_true, Bool.true_eq_false, ite_false,
              ite_true]
            exact ih pred1 m1 g h1

/-- C8.  A fits measurement is not fully side-effect-free on the printer:
when the measured content begins with a group start carrying an identity,
Printer::fits hands back a printer state whose group-mode table has an
entry for that id — whatever the rest of the measured content and the
measurement's outcome — so the speculative record persists after the
measurer is finished and its verdict discarded.  The single measuring step
records exactly the group's speculative mode: the surrounding context's
mode for a flat-hinted group, Expanded for an expand-hinted one. -/
theorem fits_measurement_records_group_mode (fuel : Nat) (opts : PrinterOptions) (st : PState)
    (stack : CallStack) (istack : IndentStack) (rest : Queue) (gmode : PrintMode) (g : Nat)
    (m : FitsM) :
    (GroupModes.getPrintMode
      ((printerFits (fuel + 1) opts st stack istack
        (.tag (.startGroup ⟨gmode, some g⟩) :: rest)).2).groupModes g).isSome = true ∧
    GroupModes.getPrintMode
        ((fitsElement opts false m (.tag (.startGroup ⟨gmode, some g⟩))).2).st.groupModes g
      = some (if GroupTag.isFlat ⟨gmode, some g⟩ then (CallStack.top m.stack).mode
              else PrintMode.expanded) := by
  constructor
  · simp only [printerFits]
    rw [fitsLoop]
    simp only [mkFitsM]
    rw [fitsElement_startGroup_eq]
    dsimp only
    simp only [FitsPred.isEnd]
    apply fitsLoop_gm_mono
    simp only [fitsGroupStep]
    rw [getPrintMode_insert_self]
    rfl
  · rw [fitsElement_startGroup_eq]
    simp only [fitsGroupStep]
    rw [getPrintMode_insert_self]

end OxcPrinter
